import Mathlib

/-!
Verification of the S3 storage adapter (`pkg/storage/s3/s3.go`) of
mrmuli/mysql-backup against its natural-language specification.

The development shallowly embeds the Go code: the `S3` struct and its five
functional options, construction (`New`), the request each operation sends to
the AWS SDK (`GetObject` / `PutObject` / `ListObjectsV2` / `DeleteObject`),
the success/error control flow of each operation, endpoint normalization
(`getEndpoint`), configuration resolution (`getConfig`), and the conversion of
a listing into `fs.FileInfo` values (`s3FileInfo`).

The Go standard-library helpers the code calls (`path.Join` / `path.Clean`,
`net/url` parsing, `url.URL.Hostname()` via `splitHostPort`) are embedded as
executable Lean functions that follow the standard library's algorithms.
-/

/-! ## Go standard library: `path.Clean` and `path.Join`

`path.Clean` is embedded by its documented algorithm: split on slashes, drop
empty and `.` segments, resolve `..` against a segment stack (dropping `..`
at the root of a rooted path, accumulating leading `..` in a relative path),
then rejoin with single slashes, restoring the leading slash of a rooted path
and returning `.` for an empty relative result. -/

/-- Split a character list on the slashes, keeping empty chunks. -/
def splitSlash : List Char → List (List Char)
  | [] => [[]]
  | '/' :: rest => [] :: splitSlash rest
  | c :: rest =>
    match splitSlash rest with
    | [] => [[c]]
    | s :: ss => (c :: s) :: ss

/-- Segment stack of `path.Clean`: drop empty and dot segments, resolve
dotdot segments against the output stack (held in reverse order). -/
def cleanSegsLoop (rooted : Bool) : List (List Char) → List (List Char) → List (List Char)
  | [], out => out
  | seg :: rest, out =>
    if seg = [] ∨ seg = ['.'] then cleanSegsLoop rooted rest out
    else if seg = ['.', '.'] then
      match out with
      | [] => cleanSegsLoop rooted rest (if rooted then [] else [['.', '.']])
      | top :: outTail =>
        if top = ['.', '.'] then cleanSegsLoop rooted rest (seg :: top :: outTail)
        else cleanSegsLoop rooted rest outTail
    else cleanSegsLoop rooted rest (seg :: out)

/-- Rejoin cleaned segments with single slashes. -/
def joinSegs : List (List Char) → List Char
  | [] => []
  | [s] => s
  | s :: s2 :: rest => s ++ '/' :: joinSegs (s2 :: rest)

/-- Final assembly of `path.Clean`: rejoin the cleaned segments, restore
the leading slash of a rooted path, return `.` for an empty relative
result. -/
def cleanAssemble (rooted : Bool) (out : List (List Char)) : List Char :=
  if rooted then '/' :: joinSegs out
  else if joinSegs out = [] then ['.'] else joinSegs out

/-- Character-level body of `path.Clean`. -/
def cleanChars (p : List Char) : List Char :=
  let rooted := p.head? == some '/'
  cleanAssemble rooted ((cleanSegsLoop rooted (splitSlash p) []).reverse)

/-- Go `path.Clean`. -/
def pathClean (p : String) : String :=
  ⟨cleanChars p.toList⟩

/-- Go `path.Join` restricted to two elements, as the adapter calls it:
concatenate the non-empty elements with slashes and clean the result, or
return the empty string when both elements are empty. -/
def pathJoin2 (a b : String) : String :=
  if a = "" ∧ b = "" then ""
  else if a = "" then pathClean b
  else if b = "" then pathClean (a ++ "/")
  else pathClean (a ++ "/" ++ b)

/-! ## Go standard library: the fragment of `net/url` the adapter uses -/

/-- The fields of `url.URL` the adapter reads: `Scheme`, `Host` (which may
carry a port), and `Path`. -/
structure GoURL where
  Scheme : String
  Host : String
  Path : String
deriving DecidableEq, Repr

/-- Index of the last colon of a character list, if any. -/
def lastColonIdx (cs : List Char) : Option Nat :=
  match cs.reverse.findIdx? (· = ':') with
  | none => none
  | some j => some (cs.length - 1 - j)

/-- Strip one pair of enclosing square brackets (IPv6 literals). -/
def stripBrackets (s : String) : String :=
  let cs := s.toList
  if cs.head? = some '[' ∧ cs.getLast? = some ']' then
    ⟨(cs.drop 1).dropLast⟩
  else s

/-- Go `net/url.splitHostPort`: split at the last colon when everything after
it is a (possibly empty) digit string, else keep the whole host; strip IPv6
brackets from the host part. -/
def splitHostPort (hostPort : String) : String × String :=
  let cs := hostPort.toList
  match lastColonIdx cs with
  | none => (stripBrackets hostPort, "")
  | some i =>
    let afterCs := cs.drop (i + 1)
    if afterCs.all (fun c => c.isDigit) then
      (stripBrackets ⟨cs.take i⟩, ⟨afterCs⟩)
    else (stripBrackets hostPort, "")

/-- Go `url.URL.Hostname()`. -/
def GoURL.Hostname (u : GoURL) : String :=
  (splitHostPort u.Host).1

/-- Go `url.URL.Port()`. -/
def GoURL.Port (u : GoURL) : String :=
  (splitHostPort u.Host).2

/-- Go `url.URL.String()` for URLs carrying only scheme, host and path. -/
def urlString (u : GoURL) : String :=
  u.Scheme ++ "://" ++ u.Host ++ u.Path

/-- Everything before the first colon, paired with everything after it. -/
def findColon : List Char → Option (List Char × List Char)
  | [] => none
  | ':' :: rest => some ([], rest)
  | c :: rest => (findColon rest).map (fun p => (c :: p.1, p.2))

/-- Go scheme syntax: a letter followed by letters, digits, `+`, `-`, `.`. -/
def validScheme (s : List Char) : Bool :=
  match s with
  | [] => false
  | c :: rest =>
    c.isAlpha && rest.all (fun d => d.isAlpha || d.isDigit || d = '+' || d = '-' || d = '.')

/-- Go `url.Parse` for absolute `scheme://authority/path` URLs; `none` models
a parse error (the adapter only distinguishes error from success, and only
reads `Hostname`, `Port`, `Host`, `Path`, `String` on success). -/
def parseURL (s : String) : Option GoURL :=
  match findColon s.toList with
  | none => none
  | some (schemeCs, rest) =>
    match rest with
    | '/' :: '/' :: rest2 =>
      if validScheme schemeCs then
        let hostCs := rest2.takeWhile (fun c => c ≠ '/' && c ≠ '?' && c ≠ '#')
        let pathCs := rest2.drop hostCs.length
        some ⟨⟨schemeCs⟩, ⟨hostCs⟩, ⟨pathCs⟩⟩
      else none
    | _ => none

/-! ## The `S3` client struct, options and construction (`s3.go` 19-64) -/

/-- The `S3` struct of `s3.go`: the location URL plus the five option
fields, with Go zero values as defaults. -/
structure S3 where
  url : GoURL
  pathStyle : Bool := false
  region : String := ""
  endpoint : String := ""
  accessKeyId : String := ""
  secretAccessKey : String := ""
deriving DecidableEq, Repr

/-- The five functional options of `s3.go` 32-56. -/
inductive S3Option where
  | withPathStyle
  | withRegion (region : String)
  | withEndpoint (endpoint : String)
  | withAccessKeyId (accessKeyId : String)
  | withSecretAccessKey (secretAccessKey : String)
deriving DecidableEq, Repr

/-- Application of one option to the struct, exactly the field writes of
`WithPathStyle` / `WithRegion` / `WithEndpoint` / `WithAccessKeyId` /
`WithSecretAccessKey`. -/
def applyOption (s : S3) : S3Option → S3
  | .withPathStyle => { s with pathStyle := true }
  | .withRegion r => { s with region := r }
  | .withEndpoint e => { s with endpoint := e }
  | .withAccessKeyId k => { s with accessKeyId := k }
  | .withSecretAccessKey k => { s with secretAccessKey := k }

/-- `New` (`s3.go` 58-64): store the URL, apply the options in order, return
the client. `New` is total — it has no error path and performs no I/O. -/
def New (u : GoURL) (opts : List S3Option) : S3 :=
  opts.foldl applyOption { url := u }

/-- `Protocol` (`s3.go` 136-138). -/
def S3.Protocol (_ : S3) : String := "s3"

/-- `URL` (`s3.go` 140-142). -/
def S3.URLString (s : S3) : String := urlString s.url

/-! ## Endpoint normalization and configuration resolution (`s3.go` 195-229) -/

/-- `getEndpoint` (`s3.go` 195-211): parse the endpoint; when parsing
succeeds and the hostname is the literal `127.0.0.1`, rewrite the host to
`localhost`, re-attaching the port when there is one, and return the
re-serialized URL; otherwise return the input unchanged. -/
def getEndpoint (endpoint : String) : String :=
  match parseURL endpoint with
  | none => endpoint
  | some u =>
    if u.Hostname = "127.0.0.1" then
      let port := u.Port
      let newHost := if port ≠ "" then "localhost:" ++ port else "localhost"
      urlString { u with Host := newHost }
    else endpoint

/-- The connector configuration `getConfig` builds: a fixed endpoint
resolver for the normalized endpoint, plus verbose client logging exactly
when the ambient log level enables tracing. Credential and region
resolution is delegated to the SDK default chain and takes no input from
the adapter. -/
structure AWSConfig where
  resolvedEndpoint : String
  verboseLogging : Bool
deriving DecidableEq, Repr

/-- `getConfig` (`s3.go` 213-229). Its only inputs are the endpoint string
and the ambient trace-level flag. -/
def getConfig (endpoint : String) (traceEnabled : Bool) : AWSConfig :=
  { resolvedEndpoint := getEndpoint endpoint, verboseLogging := traceEnabled }

/-! ## The request each operation sends to the SDK -/

/-- The `GetObjectInput` built by `Pull` together with the configuration of
the client it is sent through. -/
structure GetObjectRequest where
  config : AWSConfig
  Bucket : String
  Key : String
deriving DecidableEq, Repr

/-- The `PutObjectInput` built by `Push` (its body streams from the local
source file) together with the client configuration. -/
structure PutObjectRequest where
  config : AWSConfig
  Bucket : String
  Key : String
  bodyFile : String
deriving DecidableEq, Repr

/-- The `ListObjectsV2Input` built by `ReadDir` together with the client
configuration. -/
structure ListObjectsV2Request where
  config : AWSConfig
  Bucket : String
  ListPrefix : String
deriving DecidableEq, Repr

/-- The `DeleteObjectInput` built by `Remove` together with the client
configuration. -/
structure DeleteObjectRequest where
  config : AWSConfig
  Bucket : String
  Key : String
deriving DecidableEq, Repr

/-- The download request of `Pull` (`s3.go` 66-99): bucket is the URL's
hostname, key is `path.Join(s.url.Path, source)`, configuration from
`getConfig(s.endpoint)`. -/
def pullRequest (s : S3) (traceEnabled : Bool) (source : String) : GetObjectRequest :=
  { config := getConfig s.endpoint traceEnabled
    Bucket := s.url.Hostname
    Key := pathJoin2 s.url.Path source }

/-- The upload request of `Push` (`s3.go` 101-134): bucket is the URL's
hostname, key is `path.Join(s.url.Path, target)`, body streamed from the
local `source` file. -/
def pushRequest (s : S3) (traceEnabled : Bool) (target source : String) : PutObjectRequest :=
  { config := getConfig s.endpoint traceEnabled
    Bucket := s.url.Hostname
    Key := pathJoin2 s.url.Path target
    bodyFile := source }

/-- The listing request of `ReadDir` (`s3.go` 144-171): bucket is the URL's
hostname, and the prefix is the `dirname` argument passed through verbatim. -/
def readDirRequest (s : S3) (traceEnabled : Bool) (dirname : String) : ListObjectsV2Request :=
  { config := getConfig s.endpoint traceEnabled
    Bucket := s.url.Hostname
    ListPrefix := dirname }

/-- The delete request of `Remove` (`s3.go` 173-193): bucket is the URL's
hostname, and the key is the `target` argument passed through verbatim. -/
def removeRequest (s : S3) (traceEnabled : Bool) (target : String) : DeleteObjectRequest :=
  { config := getConfig s.endpoint traceEnabled
    Bucket := s.url.Hostname
    Key := target }

/-! ## Success/error control flow of the operations -/

/-- Outcome of the external steps of one operation: whether configuration
loading, the local file open/create, and the remote transfer succeed, and
how many bytes the SDK transfer manager reports. -/
structure Effects where
  configOk : Bool
  fileOk : Bool
  transferOk : Bool
  bytes : Int
deriving DecidableEq, Repr

/-- Result flow of `Pull` (`s3.go` 66-99): config load, then target file
creation, then download; on success the downloader's byte count is
returned. -/
def PullRun (s : S3) (eff : Effects) (source target : String) : Except String Int :=
  if eff.configOk = false then Except.error "failed to load AWS config"
  else if eff.fileOk = false then Except.error ("failed to create target restore file " ++ target)
  else if eff.transferOk = false then Except.error "failed to download file"
  else Except.ok eff.bytes

/-- Result flow of `Push` (`s3.go` 101-134): config load, then source file
open, then upload; on success the literal constant `0` is returned
(`return 0, nil`), whatever the uploader transferred. -/
def PushRun (s : S3) (eff : Effects) (target source : String) : Except String Int :=
  if eff.configOk = false then Except.error "failed to load AWS config"
  else if eff.fileOk = false then Except.error ("failed to read input file " ++ source)
  else if eff.transferOk = false then Except.error "failed to upload file"
  else Except.ok 0

/-! ## Listing conversion (`s3.go` 160-170, 231-242) -/

/-- One object of a `ListObjectsV2` response page: key, last-modified
timestamp (modelled as an integer clock value) and size. -/
structure S3Object where
  key : String
  lastModified : Int
  size : Int
deriving DecidableEq, Repr

/-- `s3FileInfo` (`s3.go` 231-242). -/
structure S3FileInfo where
  name : String
  lastModified : Int
  size : Int
deriving DecidableEq, Repr

/-- `s3FileInfo.Mode()` (`s3.go` 239): the constant file mode 0. -/
def S3FileInfo.Mode (_ : S3FileInfo) : Nat := 0

/-- `s3FileInfo.IsDir()` (`s3.go` 241): constantly false. -/
def S3FileInfo.IsDir (_ : S3FileInfo) : Bool := false

/-- The conversion loop of `ReadDir` (`s3.go` 160-170): one `s3FileInfo`
per listed object, in listing order, copying key, last-modified and size. -/
def readDirConvert (contents : List S3Object) : List S3FileInfo :=
  contents.map (fun item => { name := item.key, lastModified := item.lastModified, size := item.size })

/-- Result flow of `ReadDir` (`s3.go` 144-171): config load, then the
listing call, then the conversion of the returned page. -/
def ReadDirRun (s : S3) (eff : Effects) (contents : List S3Object) (dirname : String) :
    Except String (List S3FileInfo) :=
  if eff.configOk = false then Except.error "failed to load AWS config"
  else if eff.transferOk = false then Except.error "failed to list objects"
  else Except.ok (readDirConvert contents)

/-- Result flow of `Remove` (`s3.go` 173-193): config load, then the delete
call. -/
def RemoveRun (s : S3) (eff : Effects) (target : String) : Except String Unit :=
  if eff.configOk = false then Except.error "failed to load AWS config"
  else if eff.transferOk = false then Except.error "failed to delete object"
  else Except.ok ()

/-! ## Helper lemmas -/

/-- No option writes the `url` field. -/
lemma applyOption_url (s : S3) (o : S3Option) : (applyOption s o).url = s.url := by
  cases o <;> rfl

/-- Folding options never changes the `url` field. -/
lemma foldl_applyOption_url (opts : List S3Option) :
    ∀ (init : S3), (opts.foldl applyOption init).url = init.url := by
  induction opts with
  | nil => intro init; rfl
  | cons o rest ih =>
    intro init
    rw [List.foldl_cons, ih, applyOption_url]

/-- The client built by `New` carries the URL it was given. -/
lemma New_url (u : GoURL) (opts : List S3Option) : (New u opts).url = u :=
  foldl_applyOption_url opts { url := u }

/-- Whether a character list contains two consecutive slashes. -/
def hasDoubleSlash : List Char → Bool
  | a :: b :: rest => (a == '/' && b == '/') || hasDoubleSlash (b :: rest)
  | _ => false

lemma hasDoubleSlash_cons_of_ne (c : Char) (t : List Char) (hc : c ≠ '/') :
    hasDoubleSlash (c :: t) = hasDoubleSlash t := by
  cases t with
  | nil => rfl
  | cons b rest => simp [hasDoubleSlash, hc]

lemma hasDoubleSlash_append_of_no_slash (s t : List Char) (hs : '/' ∉ s) :
    hasDoubleSlash (s ++ t) = hasDoubleSlash t := by
  induction s with
  | nil => rfl
  | cons c cs ih =>
    have hc : c ≠ '/' := fun h => hs (h ▸ List.mem_cons_self c cs)
    rw [List.cons_append, hasDoubleSlash_cons_of_ne c _ hc,
      ih (fun h => hs (List.mem_cons_of_mem _ h))]

lemma hasDoubleSlash_slash_cons (c : Char) (t : List Char) (hc : c ≠ '/') :
    hasDoubleSlash ('/' :: c :: t) = hasDoubleSlash (c :: t) := by
  simp [hasDoubleSlash, hc]

lemma joinSegs_cons (s : List Char) (rest : List (List Char)) :
    joinSegs (s :: rest) = s ++ (if rest = [] then [] else '/' :: joinSegs rest) := by
  cases rest with
  | nil => simp [joinSegs]
  | cons s2 r2 => simp [joinSegs]

/-- Joining nonempty slash-free segments never produces a double slash. -/
lemma hasDoubleSlash_joinSegs (out : List (List Char))
    (h : ∀ s ∈ out, s ≠ [] ∧ '/' ∉ s) : hasDoubleSlash (joinSegs out) = false := by
  induction out with
  | nil => rfl
  | cons s rest ih =>
    obtain ⟨hne, hns⟩ := h s (List.mem_cons_self s rest)
    rw [joinSegs_cons, hasDoubleSlash_append_of_no_slash _ _ hns]
    cases rest with
    | nil => simp [hasDoubleSlash]
    | cons s2 r2 =>
      rw [if_neg (by simp)]
      obtain ⟨hne2, hns2⟩ := h s2 (List.mem_cons_of_mem _ (List.mem_cons_self s2 r2))
      have hrec : hasDoubleSlash (joinSegs (s2 :: r2)) = false :=
        ih (fun x hx => h x (List.mem_cons_of_mem _ hx))
      have hex : ∃ c cs, s2 = c :: cs := by
        cases s2 with
        | nil => exact absurd rfl hne2
        | cons a b => exact ⟨a, b, rfl⟩
      obtain ⟨c2, cs2, hs2⟩ := hex
      have hc2 : c2 ≠ '/' := fun h' => hns2 (hs2 ▸ h' ▸ List.mem_cons_self c2 cs2)
      have hjoin : joinSegs (s2 :: r2) =
          c2 :: (cs2 ++ (if r2 = [] then [] else '/' :: joinSegs r2)) := by
        rw [joinSegs_cons, hs2, List.cons_append]
      rw [hjoin, hasDoubleSlash_slash_cons _ _ hc2, ← hjoin]
      exact hrec

/-- `splitSlash` returns a nonempty list of slash-free chunks. -/
lemma splitSlash_spec (p : List Char) :
    splitSlash p ≠ [] ∧ ∀ s ∈ splitSlash p, '/' ∉ s := by
  induction p with
  | nil =>
    refine ⟨by simp [splitSlash], ?_⟩
    intro s hs
    simp [splitSlash] at hs
    simp [hs]
  | cons c rest ih =>
    by_cases hc : c = '/'
    · subst hc
      refine ⟨by simp [splitSlash], ?_⟩
      intro s hs
      rw [show splitSlash ('/' :: rest) = [] :: splitSlash rest from rfl] at hs
      rcases List.mem_cons.mp hs with h | h
      · simp [h]
      · exact ih.2 s h
    · have hstep : splitSlash (c :: rest) =
          match splitSlash rest with
          | [] => [[c]]
          | s :: ss => (c :: s) :: ss := by
        cases rest with
        | nil => simp [splitSlash, hc]
        | cons d tail =>
          by_cases hd : d = '/' <;> simp [splitSlash, hc]
      cases hrest : splitSlash rest with
      | nil => exact absurd hrest ih.1
      | cons s0 ss =>
        rw [hstep, hrest]
        refine ⟨by simp, ?_⟩
        intro s hs
        rcases List.mem_cons.mp hs with h | h
        · subst h
          intro hmem
          rcases List.mem_cons.mp hmem with h' | h'
          · exact hc h'.symm
          · exact ih.2 s0 (hrest ▸ List.mem_cons_self s0 ss) h'
        · exact ih.2 s (hrest ▸ List.mem_cons_of_mem _ h)

/-- The `path.Clean` segment stack only ever holds nonempty slash-free
segments. -/
lemma cleanSegsLoop_inv (rooted : Bool) (segs : List (List Char)) :
    ∀ (out : List (List Char)),
      (∀ s ∈ segs, '/' ∉ s) → (∀ s ∈ out, s ≠ [] ∧ '/' ∉ s) →
      ∀ s ∈ cleanSegsLoop rooted segs out, s ≠ [] ∧ '/' ∉ s := by
  induction segs with
  | nil =>
    intro out _ hout s hs
    exact hout s hs
  | cons seg rest ih =>
    intro out hsegs hout s hs
    have hsegs' : ∀ x ∈ rest, '/' ∉ x := fun x hx => hsegs x (List.mem_cons_of_mem _ hx)
    by_cases h1 : seg = [] ∨ seg = ['.']
    · have hstep : cleanSegsLoop rooted (seg :: rest) out = cleanSegsLoop rooted rest out := by
        rw [cleanSegsLoop.eq_def]
        simp only [if_pos h1]
      rw [hstep] at hs
      exact ih out hsegs' hout s hs
    · by_cases h2 : seg = ['.', '.']
      · cases hout' : out with
        | nil =>
          subst hout'
          have hstep : cleanSegsLoop rooted (seg :: rest) [] =
              cleanSegsLoop rooted rest (if rooted then [] else [['.', '.']]) := by
            rw [cleanSegsLoop.eq_def]
            simp only [if_neg h1, if_pos h2]
          rw [hstep] at hs
          refine ih _ hsegs' ?_ s hs
          intro x hx
          by_cases hr : rooted
          · simp [hr] at hx
          · simp [hr] at hx
            simp [hx]
        | cons top outTail =>
          subst hout'
          by_cases h3 : top = ['.', '.']
          · have hstep : cleanSegsLoop rooted (seg :: rest) (top :: outTail) =
                cleanSegsLoop rooted rest (seg :: top :: outTail) := by
              rw [cleanSegsLoop.eq_def]
              simp only [if_neg h1, if_pos h2, if_pos h3]
            rw [hstep] at hs
            refine ih _ hsegs' ?_ s hs
            intro x hx
            rcases List.mem_cons.mp hx with h | h
            · subst h; rw [h2]; constructor <;> simp
            · exact hout x h
          · have hstep : cleanSegsLoop rooted (seg :: rest) (top :: outTail) =
                cleanSegsLoop rooted rest outTail := by
              rw [cleanSegsLoop.eq_def]
              simp only [if_neg h1, if_pos h2, if_neg h3]
            rw [hstep] at hs
            refine ih _ hsegs' ?_ s hs
            intro x hx
            exact hout x (List.mem_cons_of_mem _ hx)
      · have hstep : cleanSegsLoop rooted (seg :: rest) out =
            cleanSegsLoop rooted rest (seg :: out) := by
          rw [cleanSegsLoop.eq_def]
          simp only [if_neg h1, if_neg h2]
        rw [hstep] at hs
        refine ih _ hsegs' ?_ s hs
        intro x hx
        rcases List.mem_cons.mp hx with h | h
        · subst h
          refine ⟨?_, hsegs x (List.mem_cons_self _ _)⟩
          intro hnil
          exact h1 (Or.inl hnil)
        · exact hout x h

/-- The assembly step never produces a double slash from nonempty
slash-free segments. -/
lemma hasDoubleSlash_cleanAssemble (rooted : Bool) (out : List (List Char))
    (hout : ∀ s ∈ out, s ≠ [] ∧ '/' ∉ s) :
    hasDoubleSlash (cleanAssemble rooted out) = false := by
  have hjs : hasDoubleSlash (joinSegs out) = false := hasDoubleSlash_joinSegs out hout
  unfold cleanAssemble
  cases rooted with
  | false =>
    by_cases hb : joinSegs out = []
    · simp [hb]
      decide
    · simp only [if_neg hb, Bool.false_eq_true, if_false]
      exact hjs
  | true =>
    simp only [if_true]
    cases hout2 : out with
    | nil => rfl
    | cons s0 rest0 =>
      obtain ⟨hne0, hns0⟩ := hout s0 (hout2 ▸ List.mem_cons_self s0 rest0)
      have hex : ∃ c cs, s0 = c :: cs := by
        cases s0 with
        | nil => exact absurd rfl hne0
        | cons a b => exact ⟨a, b, rfl⟩
      obtain ⟨c0, cs0, hs0⟩ := hex
      have hc0 : c0 ≠ '/' := fun h' => hns0 (hs0 ▸ h' ▸ List.mem_cons_self c0 cs0)
      have hjoin0 : joinSegs (s0 :: rest0) =
          c0 :: (cs0 ++ (if rest0 = [] then [] else '/' :: joinSegs rest0)) := by
        rw [joinSegs_cons, hs0, List.cons_append]
      rw [hjoin0, hasDoubleSlash_slash_cons _ _ hc0, ← hjoin0]
      rw [← hout2]
      exact hjs

/-- The output of `path.Clean` never contains a double slash. -/
theorem pathClean_no_double_slash (p : String) :
    hasDoubleSlash (pathClean p).toList = false := by
  show hasDoubleSlash (cleanChars p.toList) = false
  unfold cleanChars
  refine hasDoubleSlash_cleanAssemble _ _ ?_
  intro s hs
  rw [List.mem_reverse] at hs
  exact cleanSegsLoop_inv _ _ [] (splitSlash_spec _).2 (by simp) s hs

/-- The output of the two-element `path.Join` never contains a double
slash. -/
theorem pathJoin2_no_double_slash (a b : String) :
    hasDoubleSlash (pathJoin2 a b).toList = false := by
  unfold pathJoin2
  by_cases h1 : a = "" ∧ b = ""
  · rw [if_pos h1]; rfl
  · rw [if_neg h1]
    by_cases h2 : a = ""
    · rw [if_pos h2]; exact pathClean_no_double_slash b
    · rw [if_neg h2]
      by_cases h3 : b = ""
      · rw [if_pos h3]; exact pathClean_no_double_slash _
      · rw [if_neg h3]; exact pathClean_no_double_slash _

/-! ## Claim theorems -/

/-- Following the spec sentence "Construction with an empty bucket/host
fails validation": a validating constructor, for refinement comparison with
the code's `New`, which performs no such check. -/
def NewValidating (u : GoURL) (opts : List S3Option) : Except String S3 :=
  if u.Host = "" then Except.error "validation failed: empty bucket/host"
  else Except.ok (New u opts)

/-- Claim C1, counterexample: at the concrete location `s3:///p` (empty
host), the code's construction does not return a validation failure — `New`
is total and returns an ordinary client — whereas the spec-side validating
constructor rejects the location; the constructed client goes on to address
the empty bucket name (here through `Remove`). -/
theorem claim_c1_counterexample :
    New ⟨"s3", "", "/p"⟩ [] = { url := ⟨"s3", "", "/p"⟩ } ∧
    NewValidating ⟨"s3", "", "/p"⟩ [] = Except.error "validation failed: empty bucket/host" ∧
    (removeRequest (New ⟨"s3", "", "/p"⟩ []) false "k").Bucket = "" := by
  refine ⟨rfl, ?_, rfl⟩
  rfl

/-- Claim C1, amended: construction never fails and performs no validation
at all — for every location, empty host included, `New` returns a client
carrying that location with the options applied, without error and without
any network call (`New` only writes struct fields). -/
theorem claim_c1_amended (u : GoURL) (opts : List S3Option) :
    (New u opts).url = u ∧ New u [] = { url := u } :=
  ⟨New_url u opts, rfl⟩

/-- Claim C1 amended, witness at a concrete location and option list. -/
theorem claim_c1_amended_witness :
    (New ⟨"s3", "bucket", "/p"⟩ [S3Option.withRegion "us-east-1"]).url = ⟨"s3", "bucket", "/p"⟩ :=
  (claim_c1_amended ⟨"s3", "bucket", "/p"⟩ [S3Option.withRegion "us-east-1"]).1

/-- Claim C2, counterexample: for the client whose location path is
`/prefix`, Pull with source `a/b.txt` uses object key `/prefix/a/b.txt` —
`path.Join` keeps the leading slash of the location path — not the claimed
`prefix/a/b.txt`. -/
theorem claim_c2_counterexample :
    (pullRequest (New ⟨"s3", "bucket", "/prefix"⟩ []) false "a/b.txt").Key = "/prefix/a/b.txt" ∧
    ("/prefix/a/b.txt" : String) ≠ "prefix/a/b.txt" := by
  constructor
  · rfl
  · decide

/-- Claim C2, amended: Pull composes its object key as
`path.Join(location.path, source)` and Push as
`path.Join(location.path, target)`; the join keeps the leading slash of the
location path, so `/prefix` and `a/b.txt` compose to `/prefix/a/b.txt`, and
the composed key never contains a double slash. -/
theorem claim_c2_amended :
    (∀ (s : S3) (t : Bool) (source : String),
      (pullRequest s t source).Key = pathJoin2 s.url.Path source) ∧
    (∀ (s : S3) (t : Bool) (target source : String),
      (pushRequest s t target source).Key = pathJoin2 s.url.Path target) ∧
    (pullRequest (New ⟨"s3", "bucket", "/prefix"⟩ []) false "a/b.txt").Key = "/prefix/a/b.txt" ∧
    (∀ a b : String, hasDoubleSlash (pathJoin2 a b).toList = false) := by
  refine ⟨fun s t source => rfl, fun s t target source => rfl, rfl, ?_⟩
  exact pathJoin2_no_double_slash

/-- Claim C3: ReadDir passes its `dirname` argument verbatim as the listing
prefix and Remove deletes exactly the key `target`, in the client's bucket,
for every client — in particular the configured location path is never
joined in. -/
theorem claim_c3_literal_keys (s : S3) (t : Bool) (dirname target : String) :
    (readDirRequest s t dirname).ListPrefix = dirname ∧
    (readDirRequest s t dirname).Bucket = s.url.Hostname ∧
    (removeRequest s t target).Key = target ∧
    (removeRequest s t target).Bucket = s.url.Hostname :=
  ⟨rfl, rfl, rfl, rfl⟩

/-- Claim C4: two clients that agree on everything but the `accessKeyId`
and `secretAccessKey` fields build identical connector configurations and
requests, and their operations return identical results (two-run
noninterference: the credential fields are never read). -/
theorem claim_c4_credentials_noninterference (s1 s2 : S3)
    (hu : s1.url = s2.url) (hp : s1.pathStyle = s2.pathStyle)
    (hr : s1.region = s2.region) (he : s1.endpoint = s2.endpoint) :
    (∀ t src, pullRequest s1 t src = pullRequest s2 t src) ∧
    (∀ t tgt src, pushRequest s1 t tgt src = pushRequest s2 t tgt src) ∧
    (∀ t d, readDirRequest s1 t d = readDirRequest s2 t d) ∧
    (∀ t k, removeRequest s1 t k = removeRequest s2 t k) ∧
    (∀ eff src tgt, PullRun s1 eff src tgt = PullRun s2 eff src tgt) ∧
    (∀ eff tgt src, PushRun s1 eff tgt src = PushRun s2 eff tgt src) ∧
    (∀ eff contents d, ReadDirRun s1 eff contents d = ReadDirRun s2 eff contents d) ∧
    (∀ eff k, RemoveRun s1 eff k = RemoveRun s2 eff k) := by
  refine ⟨?_, ?_, ?_, ?_, fun _ _ _ => rfl, fun _ _ _ => rfl, fun _ _ _ => rfl, fun _ _ => rfl⟩
  · intro t src; simp [pullRequest, hu, he]
  · intro t tgt src; simp [pushRequest, hu, he]
  · intro t d; simp [readDirRequest, hu, he]
  · intro t k; simp [removeRequest, hu, he]

/-- Claim C4, witness: two concrete clients differing exactly in their
credential fields produce the same Pull request. -/
theorem claim_c4_witness :
    pullRequest (New ⟨"s3", "bucket", "/p"⟩
        [S3Option.withAccessKeyId "AKID-A", S3Option.withSecretAccessKey "sekrit"]) false "x" =
      pullRequest (New ⟨"s3", "bucket", "/p"⟩ []) false "x" :=
  (claim_c4_credentials_noninterference
    (New ⟨"s3", "bucket", "/p"⟩
      [S3Option.withAccessKeyId "AKID-A", S3Option.withSecretAccessKey "sekrit"])
    (New ⟨"s3", "bucket", "/p"⟩ []) rfl rfl rfl rfl).1 false "x"

/-- Claim C5: endpoint normalization rewrites the loopback literal to
`localhost` preserving the port (`http://127.0.0.1:9000` becomes
`http://localhost:9000`, `http://127.0.0.1` becomes `http://localhost`),
passes any endpoint whose hostname is not `127.0.0.1` through unchanged,
and passes any unparsable endpoint through unchanged. -/
theorem claim_c5_endpoint_normalization :
    getEndpoint "http://127.0.0.1:9000" = "http://localhost:9000" ∧
    getEndpoint "http://127.0.0.1" = "http://localhost" ∧
    (∀ (e : String) (u : GoURL),
      parseURL e = some u → u.Hostname ≠ "127.0.0.1" → getEndpoint e = e) ∧
    (∀ e : String, parseURL e = none → getEndpoint e = e) := by
  refine ⟨by decide, by decide, ?_, ?_⟩
  · intro e u hparse hhost
    unfold getEndpoint
    rw [hparse]
    simp [hhost]
  · intro e hparse
    unfold getEndpoint
    rw [hparse]

/-- Claim C5, witness: the pass-through branches at a concrete non-loopback
endpoint and at a concrete unparsable string. -/
theorem claim_c5_witness :
    getEndpoint "http://example.com:9000" = "http://example.com:9000" ∧
    getEndpoint "://bad" = "://bad" :=
  ⟨claim_c5_endpoint_normalization.2.2.1 "http://example.com:9000"
      ⟨"http", "example.com:9000", ""⟩ (by decide) (by decide),
    claim_c5_endpoint_normalization.2.2.2 "://bad" (by decide)⟩

/-- Claim C6: a successful Push returns the byte count 0 whatever the
uploader actually transferred — every success result is `ok 0`, and when
all three steps (config load, file open, upload) succeed the result is
exactly `ok 0`. -/
theorem claim_c6_push_returns_zero (s : S3) (eff : Effects) (target source : String) :
    (∀ n, PushRun s eff target source = Except.ok n → n = 0) ∧
    (eff.configOk = true → eff.fileOk = true → eff.transferOk = true →
      PushRun s eff target source = Except.ok 0) := by
  obtain ⟨c, f, t, b⟩ := eff
  constructor
  · intro n h
    cases c <;> cases f <;> cases t <;> (simp [PushRun] at h; try omega)
  · intro hc hf ht
    simp only at hc hf ht
    subst hc; subst hf; subst ht
    rfl

/-- Claim C6, witness: a Push whose uploader moved 12345 bytes still
returns 0. -/
theorem claim_c6_witness :
    PushRun (New ⟨"s3", "bucket", "/p"⟩ []) ⟨true, true, true, 12345⟩ "t" "src" = Except.ok 0 :=
  (claim_c6_push_returns_zero (New ⟨"s3", "bucket", "/p"⟩ [])
    ⟨true, true, true, 12345⟩ "t" "src").2 rfl rfl rfl

/-- Claim C7: `URL()` round-trips the location a client was constructed
from — for every location and every option list, `URL()` of the constructed
client is the string form of that location. -/
theorem claim_c7_url_roundtrip (u : GoURL) (opts : List S3Option) :
    (New u opts).URLString = urlString u := by
  unfold S3.URLString
  rw [New_url]

/-- Claim C8: `Protocol()` returns the fixed string "s3" for every
location and every option combination supplied at construction. -/
theorem claim_c8_protocol_constant (u : GoURL) (opts : List S3Option) :
    (New u opts).Protocol = "s3" :=
  rfl

/-- Claim C9: ReadDir returns one entry per listed object, in the
backend's order, with name, size and last-modified copied from the listing,
and every entry carries the fixed sentinel metadata `IsDir() = false` and
`Mode() = 0`. -/
theorem claim_c9_readdir_entries (contents : List S3Object) :
    (readDirConvert contents).length = contents.length ∧
    (∀ (i : Nat) (hi : i < contents.length) (hj : i < (readDirConvert contents).length),
      ((readDirConvert contents).get ⟨i, hj⟩).name = (contents.get ⟨i, hi⟩).key ∧
      ((readDirConvert contents).get ⟨i, hj⟩).size = (contents.get ⟨i, hi⟩).size ∧
      ((readDirConvert contents).get ⟨i, hj⟩).lastModified = (contents.get ⟨i, hi⟩).lastModified) ∧
    (∀ f ∈ readDirConvert contents, f.IsDir = false ∧ f.Mode = 0) := by
  refine ⟨by simp [readDirConvert], ?_, ?_⟩
  · intro i hi hj
    simp [readDirConvert, List.get_eq_getElem, List.getElem_map]
  · intro f _
    exact ⟨rfl, rfl⟩

/-- Claim C9, witness: a concrete one-object listing converts to the
matching entry. -/
theorem claim_c9_witness :
    ((readDirConvert [⟨"backup/db.tgz", 1700000000, 42⟩]).get ⟨0, by decide⟩).name =
      "backup/db.tgz" :=
  ((claim_c9_readdir_entries [⟨"backup/db.tgz", 1700000000, 42⟩]).2.1 0
    (by decide) (by decide)).1

/-- Claim C10: two clients that agree on everything but the `region` and
`pathStyle` fields build identical connector configurations and requests
and their operations return identical results — the two fields are written
by their options but never read by any operation. -/
theorem claim_c10_region_pathstyle_noninterference (s1 s2 : S3)
    (hu : s1.url = s2.url) (he : s1.endpoint = s2.endpoint)
    (ha : s1.accessKeyId = s2.accessKeyId) (hs : s1.secretAccessKey = s2.secretAccessKey) :
    ((∀ s r, (applyOption s (S3Option.withRegion r)).region = r) ∧
      (∀ s, (applyOption s S3Option.withPathStyle).pathStyle = true)) ∧
    (∀ t src, pullRequest s1 t src = pullRequest s2 t src) ∧
    (∀ t tgt src, pushRequest s1 t tgt src = pushRequest s2 t tgt src) ∧
    (∀ t d, readDirRequest s1 t d = readDirRequest s2 t d) ∧
    (∀ t k, removeRequest s1 t k = removeRequest s2 t k) ∧
    (∀ eff src tgt, PullRun s1 eff src tgt = PullRun s2 eff src tgt) ∧
    (∀ eff tgt src, PushRun s1 eff tgt src = PushRun s2 eff tgt src) ∧
    (∀ eff contents d, ReadDirRun s1 eff contents d = ReadDirRun s2 eff contents d) ∧
    (∀ eff k, RemoveRun s1 eff k = RemoveRun s2 eff k) := by
  refine ⟨⟨fun _ _ => rfl, fun _ => rfl⟩, ?_, ?_, ?_, ?_,
    fun _ _ _ => rfl, fun _ _ _ => rfl, fun _ _ _ => rfl, fun _ _ => rfl⟩
  · intro t src; simp [pullRequest, hu, he]
  · intro t tgt src; simp [pushRequest, hu, he]
  · intro t d; simp [readDirRequest, hu, he]
  · intro t k; simp [removeRequest, hu, he]

/-- Claim C10, witness: two concrete clients differing exactly in region
and path-style addressing produce the same Remove request. -/
theorem claim_c10_witness :
    removeRequest (New ⟨"s3", "bucket", "/p"⟩
        [S3Option.withRegion "eu-west-1", S3Option.withPathStyle]) false "k" =
      removeRequest (New ⟨"s3", "bucket", "/p"⟩ []) false "k" :=
  (claim_c10_region_pathstyle_noninterference
    (New ⟨"s3", "bucket", "/p"⟩ [S3Option.withRegion "eu-west-1", S3Option.withPathStyle])
    (New ⟨"s3", "bucket", "/p"⟩ []) rfl rfl rfl rfl).2.2.2.2.1 false "k"
